import Mathlib

/-!
Verification of `bookkeeping/trends.py` (`summarize_trend`).

The Python function is embedded shallowly over `ℚ` (all concrete inputs in
the spec are exact decimals, and every arithmetic step of the source is
field arithmetic).  The two library black boxes the source calls —
`math.sqrt` and `statistics.NormalDist`'s `cdf` / `inv_cdf` — are taken as
function parameters `sqrt`, `cdf`, `inv_cdf`; theorems assume only the
standard properties of these functions that each claim needs.
`NormalDist(mu, sigma).cdf 0` is embedded as `cdf ((0 - mu) / sigma)`
(standardization of a normal CDF), matching the source's use.

Python exceptions are embedded with `Except`: `summarize_trend` raises
`ValueError` when `n < 2`, and at `n == 2` the statement
`s_err = math.sqrt(sum(r ** 2 for r in residuals) / (n - 2))`
divides a float by the integer zero, which raises `ZeroDivisionError`.
`inv_cdf` is modelled as a total function, so the `StatisticsError` that
`NormalDist().inv_cdf` raises when its argument `(1 + confidence) / 2` falls
outside (0,1) is not an error path of the embedding.  The spec (§7) declares
behaviour at confidence outside (0,1) undefined and makes callers responsible
for the precondition, so theorems asserting a successful return are to be read
under that precondition; the failure-mode theorem (C1), whose subject is which
error paths exist, carries the confidence ∈ (0,1) guard explicitly so that it
claims nothing about the out-of-domain error path the embedding collapses.
-/

namespace Trends

inductive TrendError where
  | insufficientData   -- ValueError("At least two data points are required ...")
  | divisionByZero     -- ZeroDivisionError from `/ (n - 2)` when n == 2
deriving DecidableEq, Repr

/-- The dictionary returned by `summarize_trend`:
`{"current": (current_mean, (ci_lo, ci_hi)), "p_slope_positive": _, "p_above_zero_future": _}`. -/
structure TrendResult where
  current_mean : ℚ
  ci_lo : ℚ
  ci_hi : ℚ
  p_slope_positive : ℚ
  p_above_zero_future : ℚ
deriving DecidableEq, Repr

/-- `x_mean = (n - 1) / 2  # mean of 0..n-1` (Python int subtraction then true division). -/
def x_mean (n : ℕ) : ℚ := ((n : ℚ) - 1) / 2

/-- `y_mean = mean(data)` (`statistics.mean`: sum divided by length). -/
def y_mean (data : List ℚ) : ℚ := data.sum / (data.length : ℚ)

/-- `denominator = sum((x - x_mean) ** 2 for x in x_values)` with `x_values = list(range(n))`. -/
def denominator (n : ℕ) : ℚ :=
  ((List.range n).map (fun x : ℕ => ((x : ℚ) - x_mean n) ^ 2)).sum

/-- `slope = sum((x - x_mean) * (y - y_mean) for x, y in zip(x_values, data)) / denominator`. -/
def slope (data : List ℚ) : ℚ :=
  (List.zipWith (fun (x : ℕ) (y : ℚ) => ((x : ℚ) - x_mean data.length) * (y - y_mean data))
      (List.range data.length) data).sum / denominator data.length

/-- `intercept = y_mean - slope * x_mean`. -/
def intercept (data : List ℚ) : ℚ := y_mean data - slope data * x_mean data.length

/-- `fitted = [intercept + slope * x for x in x_values]`. -/
def fitted (data : List ℚ) : List ℚ :=
  (List.range data.length).map (fun x : ℕ => intercept data + slope data * (x : ℚ))

/-- `residuals = [y - f for y, f in zip(data, fitted)]`. -/
def residuals (data : List ℚ) : List ℚ := List.zipWith (· - ·) data (fitted data)

/-- `s_err = math.sqrt(sum(r ** 2 for r in residuals) / (n - 2))` (reached only for n ≥ 3). -/
def s_err (sqrt : ℚ → ℚ) (data : List ℚ) : ℚ :=
  sqrt (((residuals data).map (fun r => r ^ 2)).sum / ((data.length : ℚ) - 2))

/-- `slope_se = s_err / math.sqrt(denominator)`. -/
def slope_se (sqrt : ℚ → ℚ) (data : List ℚ) : ℚ :=
  s_err sqrt data / sqrt (denominator data.length)

/-- `current_x = x_values[-1]`, i.e. `n - 1` (an int; guarded by n ≥ 2). -/
def current_x (n : ℕ) : ℚ := (n : ℚ) - 1

/-- `current_mean = intercept + slope * current_x`. -/
def current_mean (data : List ℚ) : ℚ :=
  intercept data + slope data * current_x data.length

/-- `current_se = s_err * math.sqrt(1 / n + (current_x - x_mean) ** 2 / denominator)`. -/
def current_se (sqrt : ℚ → ℚ) (data : List ℚ) : ℚ :=
  s_err sqrt data *
    sqrt (1 / (data.length : ℚ) +
      (current_x data.length - x_mean data.length) ^ 2 / denominator data.length)

/-- `z = NormalDist().inv_cdf((1 + confidence) / 2)`. -/
def zvalue (inv_cdf : ℚ → ℚ) (confidence : ℚ) : ℚ := inv_cdf ((1 + confidence) / 2)

/-- `future_x = current_x + horizon` (Python ints). -/
def future_x (n : ℕ) (horizon : ℤ) : ℚ := current_x n + (horizon : ℚ)

/-- `future_mean = intercept + slope * future_x`. -/
def future_mean (data : List ℚ) (horizon : ℤ) : ℚ :=
  intercept data + slope data * future_x data.length horizon

/-- `future_se = s_err * math.sqrt(1 / n + (future_x - x_mean) ** 2 / denominator)`. -/
def future_se (sqrt : ℚ → ℚ) (data : List ℚ) (horizon : ℤ) : ℚ :=
  s_err sqrt data *
    sqrt (1 / (data.length : ℚ) +
      (future_x data.length horizon - x_mean data.length) ^ 2 / denominator data.length)

/-- Shallow embedding of `summarize_trend(values, horizon, confidence)` from
`bookkeeping/trends.py`.  `values` is already materialized (`data = list(values)`).
Raising is modelled by `Except.error`; the arithmetic mirrors the source
statement by statement through the definitions above. -/
def summarize_trend (sqrt cdf inv_cdf : ℚ → ℚ) (values : List ℚ)
    (horizon : ℤ) (confidence : ℚ) : Except TrendError TrendResult :=
  let data := values
  let n := data.length
  if n < 2 then .error .insufficientData
  else if n = 2 then
    -- `sum(r ** 2 for r in residuals) / (n - 2)` raises ZeroDivisionError here
    .error .divisionByZero
  else
    let m := current_mean data
    let se := current_se sqrt data
    let z := zvalue inv_cdf confidence
    let p_slope :=
      if slope_se sqrt data = 0 then (if slope data > 0 then (1 : ℚ) else 0)
      else 1 - cdf ((0 - slope data) / slope_se sqrt data)
    let fm := future_mean data horizon
    let fse := future_se sqrt data horizon
    let p_future :=
      if fse = 0 then (if fm > 0 then (1 : ℚ) else 0)
      else 1 - cdf ((0 - fm) / fse)
    .ok ⟨m, m - z * se, m + z * se, p_slope, p_future⟩

/-- The OLS slope exactly as the spec states it:
`slope = Σ(x_i - x_mean)(y_i - y_mean) / Σ(x_i - x_mean)²`
with `x_i = 0..n-1` and `x_mean = (n-1)/2`. -/
def spec_slope (data : List ℚ) : ℚ :=
  (∑ i in Finset.range data.length,
      (((i : ℚ) - ((data.length : ℚ) - 1) / 2) * (data.getD i 0 - y_mean data)))
    / ∑ i in Finset.range data.length, ((i : ℚ) - ((data.length : ℚ) - 1) / 2) ^ 2

/-- The intercept exactly as the spec states it: `intercept = y_mean - slope * x_mean`. -/
def spec_intercept (data : List ℚ) : ℚ :=
  y_mean data - spec_slope data * (((data.length : ℚ) - 1) / 2)

/-! ### General lemmas about the pieces of the computation -/

lemma sum_range_id_cast (n : ℕ) :
    ∑ i in Finset.range n, (i : ℚ) = (n : ℚ) * ((n : ℚ) - 1) / 2 := by
  induction n with
  | zero => simp
  | succ m ih =>
      rw [Finset.sum_range_succ, ih]
      push_cast
      ring

lemma sum_map_range (f : ℕ → ℚ) (n : ℕ) :
    ((List.range n).map f).sum = ∑ i in Finset.range n, f i := by
  induction n with
  | zero => rfl
  | succ m ih =>
      rw [List.range_succ, List.map_append, List.sum_append, Finset.sum_range_succ, ih]
      simp

lemma zipWith_range_getD (g : ℕ → ℚ → ℚ) (l : List ℚ) :
    List.zipWith g (List.range l.length) l
      = (List.range l.length).map (fun i => g i (l.getD i 0)) := by
  induction l generalizing g with
  | nil => rfl
  | cons a t ih =>
      simp only [List.length_cons, List.range_succ_eq_map, List.zipWith_cons_cons,
        List.zipWith_map_left, List.map_cons, List.map_map]
      refine congrArg (List.cons (g 0 a)) ?_
      rw [ih (fun i y => g (Nat.succ i) y)]
      simp [Function.comp_def]

lemma denominator_eq_sum (n : ℕ) :
    denominator n = ∑ i in Finset.range n, ((i : ℚ) - x_mean n) ^ 2 :=
  sum_map_range _ n

lemma denominator_pos (n : ℕ) (hn : 2 ≤ n) : 0 < denominator n := by
  rw [denominator_eq_sum]
  refine Finset.sum_pos' (fun i _ => sq_nonneg _) ⟨0, Finset.mem_range.2 (by omega), ?_⟩
  have h2 : (2 : ℚ) ≤ (n : ℚ) := by exact_mod_cast hn
  have hx : ((0 : ℕ) : ℚ) - x_mean n ≠ 0 := by
    unfold x_mean
    push_cast
    intro hc
    have : (n : ℚ) = 1 := by
      field_simp at hc
      linarith
    linarith
  exact lt_of_le_of_ne (sq_nonneg _) (Ne.symm (pow_ne_zero 2 hx))

/-! ### Exact computation on affine (perfect-line) data -/

lemma length_affine (a b : ℚ) (n : ℕ) :
    ((List.range n).map fun i : ℕ => a + b * (i : ℚ)).length = n := by
  rw [List.length_map, List.length_range]

lemma y_mean_affine (a b : ℚ) (n : ℕ) (hn : 0 < n) :
    y_mean ((List.range n).map fun i : ℕ => a + b * (i : ℚ)) = a + b * x_mean n := by
  unfold y_mean
  rw [length_affine, sum_map_range (fun i : ℕ => a + b * (i : ℚ)) n]
  rw [Finset.sum_add_distrib, Finset.sum_const, ← Finset.mul_sum, sum_range_id_cast,
    Finset.card_range, nsmul_eq_mul]
  unfold x_mean
  have hne : (n : ℚ) ≠ 0 := Nat.cast_ne_zero.2 (by omega)
  field_simp
  ring

lemma slope_affine (a b : ℚ) (n : ℕ) (hn : 2 ≤ n) :
    slope ((List.range n).map fun i : ℕ => a + b * (i : ℚ)) = b := by
  unfold slope
  rw [y_mean_affine a b n (by omega), length_affine,
    List.zipWith_map_right, List.zipWith_same, sum_map_range]
  have hsum : (∑ i in Finset.range n,
        ((i : ℚ) - x_mean n) * (a + b * (i : ℚ) - (a + b * x_mean n)))
      = b * denominator n := by
    rw [denominator_eq_sum, Finset.mul_sum]
    refine Finset.sum_congr rfl fun i _ => ?_
    ring
  rw [hsum]
  exact mul_div_cancel_right₀ b (ne_of_gt (denominator_pos n hn))

lemma intercept_affine (a b : ℚ) (n : ℕ) (hn : 2 ≤ n) :
    intercept ((List.range n).map fun i : ℕ => a + b * (i : ℚ)) = a := by
  unfold intercept
  rw [y_mean_affine a b n (by omega), slope_affine a b n hn, length_affine]
  ring

lemma residuals_affine (a b : ℚ) (n : ℕ) (hn : 2 ≤ n) :
    residuals ((List.range n).map fun i : ℕ => a + b * (i : ℚ))
      = (List.range n).map fun _ => (0 : ℚ) := by
  unfold residuals fitted
  rw [length_affine, intercept_affine a b n hn, slope_affine a b n hn,
    List.zipWith_map_left, List.zipWith_map_right, List.zipWith_same]
  simp

lemma sum_sq_residuals_affine (a b : ℚ) (n : ℕ) (hn : 2 ≤ n) :
    ((residuals ((List.range n).map fun i : ℕ => a + b * (i : ℚ))).map fun r => r ^ 2).sum
      = 0 := by
  rw [residuals_affine a b n hn]
  simp

/-- On a perfect line `y_i = a + b·i` with `n ≥ 3` points the residual error is
exactly zero, so `summarize_trend` returns the fitted endpoint with a degenerate
interval and the deterministic probabilities of the zero-noise branches. -/
lemma summarize_affine (sqrt cdf inv_cdf : ℚ → ℚ) (a b : ℚ) (n : ℕ) (h : ℤ) (c : ℚ)
    (hs : sqrt 0 = 0) (hn : 3 ≤ n) :
    summarize_trend sqrt cdf inv_cdf ((List.range n).map fun i : ℕ => a + b * (i : ℚ)) h c
      = .ok { current_mean := a + b * ((n : ℚ) - 1),
              ci_lo := a + b * ((n : ℚ) - 1),
              ci_hi := a + b * ((n : ℚ) - 1),
              p_slope_positive := if 0 < b then 1 else 0,
              p_above_zero_future := if 0 < a + b * ((n : ℚ) - 1 + (h : ℚ)) then 1 else 0 } := by
  have hserr : s_err sqrt ((List.range n).map fun i : ℕ => a + b * (i : ℚ)) = 0 := by
    unfold s_err
    rw [sum_sq_residuals_affine a b n (by omega), zero_div, hs]
  have hsse : slope_se sqrt ((List.range n).map fun i : ℕ => a + b * (i : ℚ)) = 0 := by
    unfold slope_se
    rw [hserr, zero_div]
  have hcse : current_se sqrt ((List.range n).map fun i : ℕ => a + b * (i : ℚ)) = 0 := by
    unfold current_se
    rw [hserr, zero_mul]
  have hfse : future_se sqrt ((List.range n).map fun i : ℕ => a + b * (i : ℚ)) h = 0 := by
    unfold future_se
    rw [hserr, zero_mul]
  have hcm : current_mean ((List.range n).map fun i : ℕ => a + b * (i : ℚ))
      = a + b * ((n : ℚ) - 1) := by
    unfold current_mean current_x
    rw [length_affine, intercept_affine a b n (by omega), slope_affine a b n (by omega)]
  have hfm : future_mean ((List.range n).map fun i : ℕ => a + b * (i : ℚ)) h
      = a + b * ((n : ℚ) - 1 + (h : ℚ)) := by
    unfold future_mean future_x current_x
    rw [length_affine, intercept_affine a b n (by omega), slope_affine a b n (by omega)]
  simp only [summarize_trend, length_affine]
  rw [if_neg (by omega), if_neg (by omega)]
  rw [hsse, hcse, hfse, hcm, hfm, slope_affine a b n (by omega)]
  simp [mul_zero]

/-! ### The code's slope/intercept agree with the spec's summation formulas -/

lemma slope_eq_spec (data : List ℚ) : slope data = spec_slope data := by
  unfold slope spec_slope x_mean
  rw [zipWith_range_getD, sum_map_range, denominator_eq_sum]
  unfold x_mean
  rfl

lemma intercept_eq_spec (data : List ℚ) : intercept data = spec_intercept data := by
  unfold intercept spec_intercept x_mean
  rw [slope_eq_spec]

/-! ### Shape of any successful return -/

/-- Any `ok` result of `summarize_trend` is exactly the record assembled from the
intermediate quantities of the source. -/
lemma ok_fields (sqrt cdf inv_cdf : ℚ → ℚ) (values : List ℚ)
    (horizon : ℤ) (confidence : ℚ) (r : TrendResult)
    (hr : summarize_trend sqrt cdf inv_cdf values horizon confidence = .ok r) :
    r = { current_mean := current_mean values,
          ci_lo := current_mean values - zvalue inv_cdf confidence * current_se sqrt values,
          ci_hi := current_mean values + zvalue inv_cdf confidence * current_se sqrt values,
          p_slope_positive :=
            if slope_se sqrt values = 0 then (if slope values > 0 then (1 : ℚ) else 0)
            else 1 - cdf ((0 - slope values) / slope_se sqrt values),
          p_above_zero_future :=
            if future_se sqrt values horizon = 0 then
              (if future_mean values horizon > 0 then (1 : ℚ) else 0)
            else 1 - cdf ((0 - future_mean values horizon) / future_se sqrt values horizon) } := by
  simp only [summarize_trend] at hr
  by_cases h1 : values.length < 2
  · rw [if_pos h1] at hr
    exact absurd hr (by simp)
  · rw [if_neg h1] at hr
    by_cases h2 : values.length = 2
    · rw [if_pos h2] at hr
      exact absurd hr (by simp)
    · rw [if_neg h2] at hr
      injection hr with h
      exact h.symm

/-- A successful return forces at least three observations. -/
lemma ok_length (sqrt cdf inv_cdf : ℚ → ℚ) (values : List ℚ)
    (horizon : ℤ) (confidence : ℚ) (r : TrendResult)
    (hr : summarize_trend sqrt cdf inv_cdf values horizon confidence = .ok r) :
    3 ≤ values.length := by
  simp only [summarize_trend] at hr
  by_cases h1 : values.length < 2
  · rw [if_pos h1] at hr
    exact absurd hr (by simp)
  · rw [if_neg h1] at hr
    by_cases h2 : values.length = 2
    · rw [if_pos h2] at hr
      exact absurd hr (by simp)
    · omega

/-! ### Sign facts -/

lemma sum_sq_nonneg (l : List ℚ) : 0 ≤ (l.map fun r => r ^ 2).sum := by
  refine List.sum_nonneg fun x hx => ?_
  obtain ⟨r, _, rfl⟩ := List.mem_map.1 hx
  exact sq_nonneg r

lemma s_err_nonneg (sqrt : ℚ → ℚ) (data : List ℚ)
    (hsqrt : ∀ x, 0 ≤ x → 0 ≤ sqrt x) (hn : 3 ≤ data.length) :
    0 ≤ s_err sqrt data := by
  unfold s_err
  refine hsqrt _ (div_nonneg (sum_sq_nonneg _) ?_)
  have : (3 : ℚ) ≤ (data.length : ℚ) := by exact_mod_cast hn
  linarith

lemma current_se_nonneg (sqrt : ℚ → ℚ) (data : List ℚ)
    (hsqrt : ∀ x, 0 ≤ x → 0 ≤ sqrt x) (hn : 3 ≤ data.length) :
    0 ≤ current_se sqrt data := by
  unfold current_se
  refine mul_nonneg (s_err_nonneg sqrt data hsqrt hn) (hsqrt _ ?_)
  have hlen : (0 : ℚ) < (data.length : ℚ) := by
    exact_mod_cast Nat.lt_of_lt_of_le (by omega) hn
  have hden : 0 < denominator data.length := denominator_pos data.length (by omega)
  positivity

/-! ### Claims -/

/-- C1 counterexample: `[1, 2]` has at least 2 observations, horizon 10 ≥ 0 and
confidence 0.95 ∈ (0,1), yet `summarize_trend` does not return a result — it
fails with the division-by-zero error from `/ (n - 2)`, a failure mode beyond
the insufficient-data error. -/
theorem C1_counterexample :
    summarize_trend (fun _ => 0) (fun _ => 0) (fun _ => 0) [1, 2] 10 (95/100)
      = .error .divisionByZero := rfl

/-- C1 (amended): `summarize_trend` fails with the insufficient-data error
exactly when the number of observations is less than 2 (that check at
`trends.py:34` runs before `horizon` or `confidence` is ever touched, so this
equivalence needs no guard); at exactly 2 observations it fails with a
division-by-zero error, likewise before `confidence` is used; and for every
sequence with at least 3 observations — under the original claim's guards
horizon ≥ 0 and confidence in (0,1), within which `NormalDist().inv_cdf` cannot
raise — it returns a result with no other failure mode. -/
theorem C1_failure_modes (sqrt cdf inv_cdf : ℚ → ℚ) (values : List ℚ)
    (horizon : ℤ) (confidence : ℚ) :
    (summarize_trend sqrt cdf inv_cdf values horizon confidence
        = .error .insufficientData ↔ values.length < 2)
    ∧ (values.length = 2 →
        summarize_trend sqrt cdf inv_cdf values horizon confidence
          = .error .divisionByZero)
    ∧ (3 ≤ values.length → 0 ≤ horizon → 0 < confidence → confidence < 1 →
        ∃ r, summarize_trend sqrt cdf inv_cdf values horizon confidence = .ok r) := by
  simp only [summarize_trend]
  by_cases h1 : values.length < 2
  · rw [if_pos h1]
    exact ⟨by simp [h1], fun h => by omega, fun h _ _ _ => by omega⟩
  · rw [if_neg h1]
    by_cases h2 : values.length = 2
    · rw [if_pos h2]
      exact ⟨by simp; omega, fun _ => rfl, fun h _ _ _ => by omega⟩
    · rw [if_neg h2]
      exact ⟨by simp; omega, fun h => by omega, fun _ _ _ _ => ⟨_, rfl⟩⟩

/-- C1 witness: the amended statement instantiated at a concrete 3-point input
with horizon 1 ≥ 0 and confidence 0.95 ∈ (0,1). -/
theorem C1_failure_modes_witness :
    (summarize_trend (fun _ => 0) (fun _ => 0) (fun _ => 0) [0, 2, 4] 1 (95/100)
        = .error .insufficientData ↔ ([0, 2, 4] : List ℚ).length < 2)
    ∧ (([0, 2, 4] : List ℚ).length = 2 →
        summarize_trend (fun _ => 0) (fun _ => 0) (fun _ => 0) [0, 2, 4] 1 (95/100)
          = .error .divisionByZero)
    ∧ (3 ≤ ([0, 2, 4] : List ℚ).length → (0 : ℤ) ≤ 1 → (0 : ℚ) < 95/100 → (95/100 : ℚ) < 1 →
        ∃ r, summarize_trend (fun _ => 0) (fun _ => 0) (fun _ => 0) [0, 2, 4] 1 (95/100)
          = .ok r) :=
  C1_failure_modes (fun _ => 0) (fun _ => 0) (fun _ => 0) [0, 2, 4] 1 (95/100)

/-- C2 counterexample: `[0, 1]` has n = 2 ≥ 2 observations, yet `summarize_trend`
raises instead of returning the OLS estimate. -/
theorem C2_counterexample :
    summarize_trend (fun _ => 0) (fun _ => 0) (fun _ => 0) [0, 1] 10 (95/100)
      = .error .divisionByZero := rfl

/-- C2 (amended): on every input on which `summarize_trend` returns (n ≥ 3; at
n = 2 it raises), the code's slope and intercept equal the spec's OLS formulas
`slope = Σ(x_i - x_mean)(y_i - y_mean) / Σ(x_i - x_mean)²` (x_i = 0..n-1,
x_mean = (n-1)/2), `intercept = y_mean - slope * x_mean`, and the returned
current estimate equals `intercept + slope * (n-1)`. -/
theorem C2_ols_formulas (sqrt cdf inv_cdf : ℚ → ℚ) (values : List ℚ)
    (horizon : ℤ) (confidence : ℚ) (r : TrendResult)
    (hr : summarize_trend sqrt cdf inv_cdf values horizon confidence = .ok r) :
    slope values = spec_slope values
    ∧ intercept values = spec_intercept values
    ∧ r.current_mean
        = spec_intercept values + spec_slope values * ((values.length : ℚ) - 1) := by
  refine ⟨slope_eq_spec values, intercept_eq_spec values, ?_⟩
  rw [ok_fields sqrt cdf inv_cdf values horizon confidence r hr]
  show current_mean values = _
  unfold current_mean current_x
  rw [slope_eq_spec, intercept_eq_spec]

/-- C2 witness: the amended statement at `[0, 1, 2]`, where the function returns. -/
theorem C2_ols_formulas_witness :
    slope [0, 1, 2] = spec_slope [0, 1, 2]
    ∧ intercept [0, 1, 2] = spec_intercept [0, 1, 2]
    ∧ (⟨2, 2, 2, 1, 1⟩ : TrendResult).current_mean
        = spec_intercept [0, 1, 2] + spec_slope [0, 1, 2] * ((([0, 1, 2] : List ℚ).length : ℚ) - 1) := by
  refine C2_ols_formulas (fun _ => 0) (fun _ => 0) (fun _ => 0) [0, 1, 2] 1 (1/2) ⟨2, 2, 2, 1, 1⟩ ?_
  norm_num [summarize_trend, current_mean, current_se, current_x, zvalue, slope_se, s_err,
    residuals, fitted, intercept, slope, y_mean, x_mean, denominator, future_mean, future_se,
    future_x, List.range_succ]

/-- C3: on every input on which `summarize_trend` returns, with confidence in
(0,1), the returned interval brackets the current estimate.  `sqrt` is assumed
nonnegative on nonnegative arguments and `inv_cdf` nonnegative at probabilities
≥ 1/2, both true of `math.sqrt` and the standard normal inverse CDF. -/
theorem C3_interval_contains (sqrt cdf inv_cdf : ℚ → ℚ) (values : List ℚ)
    (horizon : ℤ) (confidence : ℚ) (r : TrendResult)
    (hsqrt : ∀ x, 0 ≤ x → 0 ≤ sqrt x)
    (hinv : ∀ p, 1 / 2 ≤ p → 0 ≤ inv_cdf p)
    (hc0 : 0 < confidence) (hc1 : confidence < 1)
    (hr : summarize_trend sqrt cdf inv_cdf values horizon confidence = .ok r) :
    r.ci_lo ≤ r.current_mean ∧ r.current_mean ≤ r.ci_hi := by
  have hn := ok_length sqrt cdf inv_cdf values horizon confidence r hr
  have hz : 0 ≤ zvalue inv_cdf confidence := by
    unfold zvalue
    exact hinv _ (by linarith)
  have hse : 0 ≤ current_se sqrt values := current_se_nonneg sqrt values hsqrt hn
  have hzse := mul_nonneg hz hse
  rw [ok_fields sqrt cdf inv_cdf values horizon confidence r hr]
  dsimp only
  constructor <;> linarith

/-- C3 witness: concrete instance at `[0, 1, 1]` with `sqrt := id`,
`inv_cdf := fun _ => 0`. -/
theorem C3_interval_contains_witness :
    (⟨7/6, 7/6, 7/6, 1, 1⟩ : TrendResult).ci_lo
        ≤ (⟨7/6, 7/6, 7/6, 1, 1⟩ : TrendResult).current_mean
    ∧ (⟨7/6, 7/6, 7/6, 1, 1⟩ : TrendResult).current_mean
        ≤ (⟨7/6, 7/6, 7/6, 1, 1⟩ : TrendResult).ci_hi := by
  refine C3_interval_contains id (fun _ => 0) (fun _ => 0) [0, 1, 1] 1 (95/100)
    ⟨7/6, 7/6, 7/6, 1, 1⟩ (fun x hx => hx) (fun p _ => le_refl 0)
    (by norm_num) (by norm_num) ?_
  norm_num [summarize_trend, current_mean, current_se, current_x, zvalue, slope_se, s_err,
    residuals, fitted, intercept, slope, y_mean, x_mean, denominator, future_mean, future_se,
    future_x, List.range_succ]

/-- C4 counterexample: `[2, 4]` lies exactly on the line `2 + 2x` with positive
slope, horizon 0 is non-negative and the extrapolated value 4 is positive, yet
`summarize_trend` raises instead of returning probability 1.0. -/
theorem C4_counterexample :
    summarize_trend (fun _ => 0) (fun _ => 0) (fun _ => 0) [2, 4] 0 (1/2)
      = .error .divisionByZero := rfl

/-- C4 (amended): for every sequence of n ≥ 3 observations lying exactly on a
line `a + b·x` with positive slope, and every non-negative horizon at which the
extrapolated value is positive, both probabilities are exactly 1; for the
perfectly decreasing `[5, 4, 3, 2, 1]` the slope probability is exactly 0
(assuming only `sqrt 0 = 0`, true of `math.sqrt`). -/
theorem C4_perfect_line_probs (sqrt cdf inv_cdf : ℚ → ℚ) (a b : ℚ) (n : ℕ)
    (h : ℤ) (c : ℚ) (hs : sqrt 0 = 0) (hn : 3 ≤ n) (hb : 0 < b) (hh : 0 ≤ h)
    (hfut : 0 < a + b * ((n : ℚ) - 1 + (h : ℚ))) :
    (∃ r, summarize_trend sqrt cdf inv_cdf
        ((List.range n).map fun i : ℕ => a + b * (i : ℚ)) h c = .ok r
      ∧ r.p_slope_positive = 1 ∧ r.p_above_zero_future = 1)
    ∧ (∃ r, summarize_trend sqrt cdf inv_cdf [5, 4, 3, 2, 1] h c = .ok r
      ∧ r.p_slope_positive = 0) := by
  constructor
  · refine ⟨_, summarize_affine sqrt cdf inv_cdf a b n h c hs hn, ?_, ?_⟩
    · simp [hb]
    · simp [hfut]
  · have hl : (List.range 5).map (fun i : ℕ => (5 : ℚ) + (-1) * (i : ℚ))
        = [5, 4, 3, 2, 1] := by
      simp [List.range_succ]
      norm_num
    have h5 := summarize_affine sqrt cdf inv_cdf 5 (-1) 5 h c hs (by norm_num)
    rw [hl] at h5
    exact ⟨_, h5, by norm_num⟩

/-- C4 witness: the amended statement at the line `1 + 1·x` with 5 points,
horizon 1. -/
theorem C4_perfect_line_probs_witness :
    (∃ r, summarize_trend (fun _ => 0) (fun _ => 0) (fun _ => 0)
        ((List.range 5).map fun i : ℕ => 1 + 1 * (i : ℚ)) 1 (95/100) = .ok r
      ∧ r.p_slope_positive = 1 ∧ r.p_above_zero_future = 1)
    ∧ (∃ r, summarize_trend (fun _ => 0) (fun _ => 0) (fun _ => 0) [5, 4, 3, 2, 1] 1 (95/100)
        = .ok r ∧ r.p_slope_positive = 0) :=
  C4_perfect_line_probs (fun _ => 0) (fun _ => 0) (fun _ => 0) 1 1 5 1 (95/100) rfl
    (by norm_num) (by norm_num) (by norm_num) (by norm_num)

/-- C5: with a strictly increasing inverse CDF on (1/2, 1) (true of the standard
normal inverse CDF), increasing only the confidence within (0,1) on a fixed
input with strictly positive current standard error strictly widens the
returned interval on both sides. -/
theorem C5_wider_interval (sqrt cdf inv_cdf : ℚ → ℚ) (values : List ℚ)
    (horizon : ℤ) (c1 c2 : ℚ) (r1 r2 : TrendResult)
    (hmono : ∀ p q, 1 / 2 ≤ p → p < q → q < 1 → inv_cdf p < inv_cdf q)
    (hse : 0 < current_se sqrt values)
    (hc0 : 0 < c1) (hcc : c1 < c2) (hc1 : c2 < 1)
    (hr1 : summarize_trend sqrt cdf inv_cdf values horizon c1 = .ok r1)
    (hr2 : summarize_trend sqrt cdf inv_cdf values horizon c2 = .ok r2) :
    r2.ci_lo < r1.ci_lo ∧ r1.ci_hi < r2.ci_hi := by
  have hz : zvalue inv_cdf c1 < zvalue inv_cdf c2 := by
    unfold zvalue
    exact hmono _ _ (by linarith) (by linarith) (by linarith)
  have hmul := mul_lt_mul_of_pos_right hz hse
  rw [ok_fields sqrt cdf inv_cdf values horizon c1 r1 hr1,
    ok_fields sqrt cdf inv_cdf values horizon c2 r2 hr2]
  dsimp only
  constructor <;> linarith

/-- C5 witness: `[0, 1, 1]` with `sqrt := id`, `inv_cdf := id`, confidence
0.95 vs 0.99: the 0.99-interval strictly contains the 0.95-interval. -/
theorem C5_wider_interval_witness :
    (⟨7/6, 1481/1440, 1879/1440, 1, 1⟩ : TrendResult).ci_lo
        < (⟨7/6, 33/32, 125/96, 1, 1⟩ : TrendResult).ci_lo
    ∧ (⟨7/6, 33/32, 125/96, 1, 1⟩ : TrendResult).ci_hi
        < (⟨7/6, 1481/1440, 1879/1440, 1, 1⟩ : TrendResult).ci_hi := by
  refine C5_wider_interval id (fun _ => 0) id [0, 1, 1] 1 (95/100) (99/100)
    ⟨7/6, 33/32, 125/96, 1, 1⟩ ⟨7/6, 1481/1440, 1879/1440, 1, 1⟩
    (fun p q _ hpq _ => hpq) ?_ (by norm_num) (by norm_num) (by norm_num) ?_ ?_
  · norm_num [current_se, current_x, s_err, residuals, fitted, intercept, slope, y_mean,
      x_mean, denominator, List.range_succ]
  · norm_num [summarize_trend, current_mean, current_se, current_x, zvalue, slope_se, s_err,
      residuals, fitted, intercept, slope, y_mean, x_mean, denominator, future_mean, future_se,
      future_x, List.range_succ]
  · norm_num [summarize_trend, current_mean, current_se, current_x, zvalue, slope_se, s_err,
      residuals, fitted, intercept, slope, y_mean, x_mean, denominator, future_mean, future_se,
      future_x, List.range_succ]

/-- C6: `summarize_trend([1,2,3,4,5], horizon=1, confidence=0.95)` returns
current estimate exactly 5, an interval containing it, and both probabilities
strictly above 0.9 (they are exactly 1; only `sqrt 0 = 0` is assumed). -/
theorem C6_end_to_end (sqrt cdf inv_cdf : ℚ → ℚ) (hs : sqrt 0 = 0) :
    ∃ r, summarize_trend sqrt cdf inv_cdf [1, 2, 3, 4, 5] 1 (95/100) = .ok r
      ∧ r.current_mean = 5
      ∧ r.ci_lo ≤ r.current_mean ∧ r.current_mean ≤ r.ci_hi
      ∧ 9 / 10 < r.p_slope_positive ∧ 9 / 10 < r.p_above_zero_future := by
  have hl : (List.range 5).map (fun i : ℕ => (1 : ℚ) + 1 * (i : ℚ)) = [1, 2, 3, 4, 5] := by
    simp [List.range_succ]
    norm_num
  have h5 := summarize_affine sqrt cdf inv_cdf 1 1 5 1 (95/100) hs (by norm_num)
  rw [hl] at h5
  exact ⟨_, h5, by norm_num, by norm_num, by norm_num, by norm_num, by norm_num⟩

/-- C6 witness: the statement instantiated with `sqrt := fun _ => 0`. -/
theorem C6_end_to_end_witness :
    ∃ r, summarize_trend (fun _ => 0) (fun _ => 0) (fun _ => 0) [1, 2, 3, 4, 5] 1 (95/100)
        = .ok r
      ∧ r.current_mean = 5
      ∧ r.ci_lo ≤ r.current_mean ∧ r.current_mean ≤ r.ci_hi
      ∧ 9 / 10 < r.p_slope_positive ∧ 9 / 10 < r.p_above_zero_future :=
  C6_end_to_end (fun _ => 0) (fun _ => 0) (fun _ => 0) rfl

/-- C7: `summarize_trend([-3,-2,-1], horizon=2)` with any confidence in (0,1)
returns slope probability strictly above 0.9 and future-above-zero probability
strictly above 0.5 (both are exactly 1; only `sqrt 0 = 0` is assumed). -/
theorem C7_zero_crossing (sqrt cdf inv_cdf : ℚ → ℚ) (c : ℚ) (hs : sqrt 0 = 0)
    (hc0 : 0 < c) (hc1 : c < 1) :
    ∃ r, summarize_trend sqrt cdf inv_cdf [-3, -2, -1] 2 c = .ok r
      ∧ 9 / 10 < r.p_slope_positive ∧ 1 / 2 < r.p_above_zero_future := by
  have hl : (List.range 3).map (fun i : ℕ => (-3 : ℚ) + 1 * (i : ℚ)) = [-3, -2, -1] := by
    simp [List.range_succ]
    norm_num
  have h3 := summarize_affine sqrt cdf inv_cdf (-3) 1 3 2 c hs (by norm_num)
  rw [hl] at h3
  exact ⟨_, h3, by norm_num, by norm_num⟩

/-- C7 witness: the statement instantiated at confidence 0.95. -/
theorem C7_zero_crossing_witness :
    ∃ r, summarize_trend (fun _ => 0) (fun _ => 0) (fun _ => 0) [-3, -2, -1] 2 (95/100)
        = .ok r
      ∧ 9 / 10 < r.p_slope_positive ∧ 1 / 2 < r.p_above_zero_future :=
  C7_zero_crossing (fun _ => 0) (fun _ => 0) (fun _ => 0) (95/100) rfl
    (by norm_num) (by norm_num)

/-- C8: `summarize_trend` is a pure function of its arguments — two calls with
identical observations, horizon, and confidence (and the same library `sqrt`,
`cdf`, `inv_cdf`) yield identical results in every field. -/
theorem C8_deterministic (sqrt cdf inv_cdf : ℚ → ℚ) (v1 v2 : List ℚ)
    (h1 h2 : ℤ) (c1 c2 : ℚ) (hv : v1 = v2) (hh : h1 = h2) (hc : c1 = c2) :
    summarize_trend sqrt cdf inv_cdf v1 h1 c1
      = summarize_trend sqrt cdf inv_cdf v2 h2 c2 := by
  rw [hv, hh, hc]

/-- C8 witness: two identical concrete calls agree. -/
theorem C8_deterministic_witness :
    summarize_trend (fun _ => 0) (fun _ => 0) (fun _ => 0) [1, 2, 3] 5 (95/100)
      = summarize_trend (fun _ => 0) (fun _ => 0) (fun _ => 0) [1, 2, 3] 5 (95/100) :=
  C8_deterministic (fun _ => 0) (fun _ => 0) (fun _ => 0) [1, 2, 3] [1, 2, 3] 5 5
    (95/100) (95/100) rfl rfl rfl

/-- C9: every returned interval is symmetric about the current estimate, with
half-width `z * current_se`. -/
theorem C9_symmetric_interval (sqrt cdf inv_cdf : ℚ → ℚ) (values : List ℚ)
    (horizon : ℤ) (confidence : ℚ) (r : TrendResult)
    (hr : summarize_trend sqrt cdf inv_cdf values horizon confidence = .ok r) :
    r.current_mean - r.ci_lo = r.ci_hi - r.current_mean
    ∧ r.current_mean - r.ci_lo = zvalue inv_cdf confidence * current_se sqrt values := by
  rw [ok_fields sqrt cdf inv_cdf values horizon confidence r hr]
  dsimp only
  constructor <;> ring

/-- C9 witness: concrete instance at `[0, 1, 1]` with `sqrt := id`,
`inv_cdf := id`, confidence 0.95. -/
theorem C9_symmetric_interval_witness :
    (⟨7/6, 33/32, 125/96, 1, 1⟩ : TrendResult).current_mean
        - (⟨7/6, 33/32, 125/96, 1, 1⟩ : TrendResult).ci_lo
      = (⟨7/6, 33/32, 125/96, 1, 1⟩ : TrendResult).ci_hi
        - (⟨7/6, 33/32, 125/96, 1, 1⟩ : TrendResult).current_mean
    ∧ (⟨7/6, 33/32, 125/96, 1, 1⟩ : TrendResult).current_mean
        - (⟨7/6, 33/32, 125/96, 1, 1⟩ : TrendResult).ci_lo
      = zvalue id (95/100) * current_se id [0, 1, 1] := by
  refine C9_symmetric_interval id (fun _ => 0) id [0, 1, 1] 1 (95/100)
    ⟨7/6, 33/32, 125/96, 1, 1⟩ ?_
  norm_num [summarize_trend, current_mean, current_se, current_x, zvalue, slope_se, s_err,
    residuals, fitted, intercept, slope, y_mean, x_mean, denominator, future_mean, future_se,
    future_x, List.range_succ]

end Trends
